import Mathlib

/-!
Shallow embedding of `src/android_automation.py` (poovarasan123/Android-Automation).

The script is a sequence of text / XML / filesystem transformations driven by
interactive prompts.  Each Python function is translated to a pure Lean
function; the interactive prompt stream is modelled as an answer oracle
`ans : Nat → Bool` consumed one answer per prompt, file contents are lists of
lines (as produced by Python `readlines`, i.e. terminators kept), the manifest
root element is a list of child elements, and the filesystem is the list of
existing directory paths.
-/

namespace AndroidAutomation

/-- Characters matched by Python's `str.strip()` / regex `\s` (ASCII range). -/
def isPySpace (c : Char) : Bool :=
  c = ' ' || c = '\t' || c = '\n' || c = '\r' || c = '\x0b' || c = '\x0c'

/-- Python `str.strip()`: drop leading and trailing whitespace. -/
def pyStrip (s : String) : String :=
  (((s.data.dropWhile isPySpace).reverse.dropWhile isPySpace).reverse).asString

/-- Python `needle in hay` substring test, on character lists. -/
def listContainsSub (needle : List Char) : List Char → Bool
  | [] => needle.isEmpty
  | c :: cs => needle.isPrefixOf (c :: cs) || listContainsSub needle cs

/-- Python `sub in s` on strings. -/
def strContains (s sub : String) : Bool :=
  listContainsSub sub.data s.data

/-- The literal the rewriting loop of `add_dependencies_method_1` compares each
stripped line against: `dependencies {`. -/
def depHeader : String := "dependencies \x7b"

/-- The hard-coded dependency snippet list of `add_dependencies_method_1`
(source lines 239-250), in order. -/
def dependencies : List String :=
  [ "\t// Glide\n    implementation(\"com.github.bumptech.glide:glide:4.16.0\")\n"
  , "\t// Lifecycle\n    implementation(\"androidx.lifecycle:lifecycle-runtime-ktx:2.6.1\")\n"
  , "    implementation(\"androidx.lifecycle:lifecycle-viewmodel-ktx:2.6.1\")\n"
  , "\t// Hilt\n    implementation(\"com.google.dagger:hilt-android:2.51.1\")\n"
  , "    kapt(\"com.google.dagger:hilt-compiler:2.51.1\")\n"
  , "\t// Retrofit & OkHttp\n    implementation(\"com.squareup.retrofit2:retrofit:2.9.0\")\n"
  , "    implementation(\"com.squareup.okhttp3:okhttp:4.11.0\")\n"
  , "\t// Room\n    implementation(\"androidx.room:room-runtime:2.6.0\")\n"
  , "    kapt(\"androidx.room:room-compiler:2.6.0\")\n"
  , "\t// Coroutine support\n    implementation(\"org.jetbrains.kotlinx:kotlinx-coroutines-android:1.7.3\")\n" ]

/-- The inner prompt loop of `add_dependencies_method_1`: for each snippet ask
the operator (answer oracle `ans` at prompt counter `k`); an accepted snippet
is written as `dep` followed by an extra newline (Python `file.write(f"{dep}\n")`).
Returns the written chunks and the advanced prompt counter. -/
def promptDeps (ans : Nat → Bool) : Nat → List String → List String × Nat
  | k, [] => ([], k)
  | k, d :: ds =>
    let r := promptDeps ans (k + 1) ds
    (if ans k then (d ++ "\n") :: r.1 else r.1, r.2)

/-- The line-rewriting loop of `add_dependencies_method_1` (source lines
257-277).  State: the `inside_dependencies` flag and the prompt counter.
Every line whose stripped form equals `dependencies {` is written, the ten
prompts run and accepted snippets are written right after it (with the flag
set and the loop continuing); a line stripping to `}` while inside flips the
flag; every other line is copied through. -/
def runDeps (ans : Nat → Bool) : List String → Bool → Nat → List String
  | [], _, _ => []
  | line :: rest, inside, k =>
    if pyStrip line = depHeader then
      line :: ((promptDeps ans k dependencies).1 ++
        runDeps ans rest true (promptDeps ans k dependencies).2)
    else
      line :: runDeps ans rest
        (if inside && (pyStrip line = "\x7d") then false else inside) k

/-- `add_dependencies_method_1`: read the file as lines, rewrite as above
(initial flag false, prompt counter 0).  The resulting chunk list concatenates
to the bytes written back to the file. -/
def add_dependencies_method_1 (ans : Nat → Bool) (lines : List String) : List String :=
  runDeps ans lines false 0

/-- Bytes of a file written as a sequence of chunks. -/
def fileContent (chunks : List String) : String :=
  String.join chunks

/-- Closed form of the rewrite when every prompt is accepted: after every line
stripping to `dependencies {`, all ten snippets (each with its extra newline)
are inserted. -/
def insertAll : List String → List String
  | [] => []
  | line :: rest =>
    if pyStrip line = depHeader then
      line :: (dependencies.map (fun d => d ++ "\n") ++ insertAll rest)
    else
      line :: insertAll rest

theorem promptDeps_true (k : Nat) (ds : List String) :
    promptDeps (fun _ => true) k ds = (ds.map (fun d => d ++ "\n"), k + ds.length) := by
  induction ds generalizing k with
  | nil => simp [promptDeps]
  | cons d ds ih => simp [promptDeps, ih]; omega

theorem promptDeps_false (k : Nat) (ds : List String) :
    promptDeps (fun _ => false) k ds = ([], k + ds.length) := by
  induction ds generalizing k with
  | nil => simp [promptDeps]
  | cons d ds ih => simp [promptDeps, ih]; omega

theorem runDeps_true (lines : List String) (inside : Bool) (k : Nat) :
    runDeps (fun _ => true) lines inside k = insertAll lines := by
  induction lines generalizing inside k with
  | nil => simp [runDeps, insertAll]
  | cons line rest ih =>
    by_cases h : pyStrip line = depHeader
    · simp [runDeps, insertAll, h, promptDeps_true, ih]
    · simp [runDeps, insertAll, h, ih]

theorem runDeps_false (lines : List String) (inside : Bool) (k : Nat) :
    runDeps (fun _ => false) lines inside k = lines := by
  induction lines generalizing inside k with
  | nil => simp [runDeps]
  | cons line rest ih =>
    by_cases h : pyStrip line = depHeader
    · simp [runDeps, h, promptDeps_false, ih]
    · simp [runDeps, h, ih]

theorem runDeps_sublist (ans : Nat → Bool) (lines : List String) (inside : Bool) (k : Nat) :
    lines.Sublist (runDeps ans lines inside k) := by
  induction lines generalizing inside k with
  | nil => simp [runDeps]
  | cons line rest ih =>
    by_cases h : pyStrip line = depHeader
    · simp only [runDeps, h, if_pos]
      exact List.Sublist.cons₂ line ((ih true _).trans (List.sublist_append_right _ _))
    · simp only [runDeps, h, if_neg, ite_false]
      exact List.Sublist.cons₂ line (ih _ k)

theorem insertAll_append_no_trigger (pre rest : List String)
    (hpre : ∀ l ∈ pre, pyStrip l ≠ depHeader) :
    insertAll (pre ++ rest) = pre ++ insertAll rest := by
  induction pre with
  | nil => simp
  | cons l pre ih =>
    have hl : pyStrip l ≠ depHeader := hpre l (List.mem_cons_self l pre)
    simp only [List.cons_append, insertAll, hl, ite_false, List.append_eq]
    rw [ih (fun x hx => hpre x (List.mem_cons_of_mem l hx))]

theorem insertAll_sublist (lines : List String) : lines.Sublist (insertAll lines) := by
  have h := runDeps_sublist (fun _ => true) lines false 0
  rwa [runDeps_true] at h

/-- C1: for every build file containing a line stripping to `dependencies {`
(first such line after a trigger-free prefix), with all ten dependency prompts
accepted, `add_dependencies_method_1` writes all ten snippet strings (each
followed by the extra newline the code adds) immediately after that line, in
the order of the hard-coded snippet list, and the remaining original lines
follow verbatim and in order (they form a sublist of the tail). -/
theorem C1_add_dependencies_all_accepted (pre post : List String) (dline : String)
    (hd : pyStrip dline = depHeader)
    (hpre : ∀ l ∈ pre, pyStrip l ≠ depHeader) :
    ∃ tail, add_dependencies_method_1 (fun _ => true) (pre ++ dline :: post)
        = pre ++ dline :: (dependencies.map (fun d => d ++ "\n") ++ tail)
      ∧ post.Sublist tail := by
  refine ⟨insertAll post, ?_, insertAll_sublist post⟩
  rw [add_dependencies_method_1, runDeps_true, insertAll_append_no_trigger _ _ hpre]
  simp [insertAll, hd]

/-- Witness for C1 at a concrete build file. -/
theorem C1_witness :
    ∃ tail, add_dependencies_method_1 (fun _ => true)
        (["plugins \x7b\n", "\x7d\n"] ++ "dependencies \x7b\n" :: ["\x7d\n"])
        = ["plugins \x7b\n", "\x7d\n"] ++ "dependencies \x7b\n" ::
            (dependencies.map (fun d => d ++ "\n") ++ tail)
      ∧ ["\x7d\n"].Sublist tail :=
  C1_add_dependencies_all_accepted ["plugins \x7b\n", "\x7d\n"] ["\x7d\n"]
    "dependencies \x7b\n" (by decide) (by decide)

/-- C2 counterexample: on a file with two `dependencies {` lines, with every
prompt accepted, the output is NOT the one where only the first occurrence
received the insertions — the second occurrence triggers the prompts again. -/
theorem C2_counterexample :
    add_dependencies_method_1 (fun _ => true)
        ["dependencies \x7b\n", "\x7d\n", "dependencies \x7b\n", "\x7d\n"]
      ≠ ["dependencies \x7b\n"] ++ dependencies.map (fun d => d ++ "\n")
          ++ ["\x7d\n", "dependencies \x7b\n", "\x7d\n"] := by
  decide

/-- C2 amended: EVERY line stripping to `dependencies {` triggers the
insertion prompts, not only the first: with all prompts accepted, both
occurrences are immediately followed by the full snippet insertion. -/
theorem C2_every_occurrence_triggers (pre mid post : List String) (d1 d2 : String)
    (h1 : pyStrip d1 = depHeader) (h2 : pyStrip d2 = depHeader)
    (hpre : ∀ l ∈ pre, pyStrip l ≠ depHeader) (hmid : ∀ l ∈ mid, pyStrip l ≠ depHeader) :
    add_dependencies_method_1 (fun _ => true) (pre ++ d1 :: (mid ++ d2 :: post))
      = pre ++ d1 :: (dependencies.map (fun d => d ++ "\n")
          ++ (mid ++ d2 :: (dependencies.map (fun d => d ++ "\n") ++ insertAll post))) := by
  rw [add_dependencies_method_1, runDeps_true, insertAll_append_no_trigger _ _ hpre]
  simp only [insertAll, h1, if_pos, List.cons.injEq, true_and]
  rw [insertAll_append_no_trigger _ _ hmid]
  simp [insertAll, h2]

/-- Witness for the amended C2 at a concrete file with two blocks. -/
theorem C2_amended_witness :
    add_dependencies_method_1 (fun _ => true)
        ([] ++ "dependencies \x7b\n" :: (["\x7d\n"] ++ "dependencies \x7b\n" :: []))
      = [] ++ "dependencies \x7b\n" :: (dependencies.map (fun d => d ++ "\n")
          ++ (["\x7d\n"] ++ "dependencies \x7b\n" ::
              (dependencies.map (fun d => d ++ "\n") ++ insertAll []))) :=
  C2_every_occurrence_triggers [] ["\x7d\n"] [] "dependencies \x7b\n" "dependencies \x7b\n"
    (by decide) (by decide) (by decide) (by decide)

/-- C3: with every dependency prompt declined, `add_dependencies_method_1`
rewrites any file to exactly its original lines, so the file bytes are
identical. -/
theorem C3_all_declined_identity (lines : List String) :
    add_dependencies_method_1 (fun _ => false) lines = lines
      ∧ fileContent (add_dependencies_method_1 (fun _ => false) lines) = fileContent lines := by
  have h : add_dependencies_method_1 (fun _ => false) lines = lines := runDeps_false lines false 0
  exact ⟨h, by rw [h]⟩

/-- An XML element as far as `add_permissions` observes it: a tag and an
attribute list (attribute key includes the `{namespace}` prefix ElementTree
uses). -/
structure Elem where
  tag : String
  attrs : List (String × String)
deriving DecidableEq

/-- The Android XML namespace used for the `name` attribute. -/
def android_ns : String := "http://schemas.android.com/apk/res/android"

/-- ElementTree's qualified key for the namespaced `name` attribute. -/
def nameAttrKey : String := "\x7b" ++ android_ns ++ "\x7d" ++ "name"

/-- Python `elem.get(key)`: first value bound to the key, else `None`. -/
def Elem.getAttr (e : Elem) (key : String) : Option String :=
  (e.attrs.find? (fun p => p.1 = key)).map Prod.snd

/-- Python `root.findall(tag)`: the direct children with the given tag. -/
def findall (children : List Elem) (tag : String) : List Elem :=
  children.filter (fun e => e.tag = tag)

/-- The element `ET.SubElement(root, "uses-permission", {name_attr: p})`
appends to the root. -/
def usesPermissionElem (p : String) : Elem :=
  ⟨"uses-permission", [(nameAttrKey, p)]⟩

/-- `existing_permissions` (source line 120): the `android:name` values of the
pre-existing direct `uses-permission` children (a `None` entry for a child
lacking the attribute, as in the Python set). -/
def existing_permissions (children : List Elem) : List (Option String) :=
  (findall children "uses-permission").map (fun e => e.getAttr nameAttrKey)

/-- The loop of `add_permissions` (source lines 122-126): the set of existing
permission names is computed once before the loop; each requested permission
not in it is appended to the root's children and recorded in
`added_permissions`.  Returns the final child list and the added list. -/
def add_permissions (children : List Elem) (perms : List String) : List Elem × List String :=
  let existing := existing_permissions children
  perms.foldl
    (fun st p =>
      if some p ∈ existing then st
      else (st.1 ++ [usesPermissionElem p], st.2 ++ [p]))
    (children, [])

/-- Source lines 129-133: the tree is re-serialized to the file only when
`added_permissions` is nonempty. -/
def manifest_written (children : List Elem) (perms : List String) : Bool :=
  !(add_permissions children perms).2.isEmpty

/-- The `basic` tier of the permission table (source lines 141-146). -/
def permissions_basic : List String :=
  [ "android.permission.INTERNET"
  , "android.permission.ACCESS_NETWORK_STATE"
  , "android.permission.ACCESS_WIFI_STATE"
  , "android.permission.READ_EXTERNAL_STORAGE" ]

/-- The `beginner` tier of the permission table (source lines 147-155). -/
def permissions_beginner : List String :=
  permissions_basic ++
  [ "android.permission.CAMERA"
  , "android.permission.ACCESS_FINE_LOCATION"
  , "android.permission.BLUETOOTH" ]

/-- The `intermediate` tier of the permission table (source lines 156-168). -/
def permissions_intermediate : List String :=
  permissions_beginner ++
  [ "android.permission.READ_SMS"
  , "android.permission.WRITE_SETTINGS"
  , "android.permission.BLUETOOTH_ADMIN"
  , "android.permission.ACCESS_COARSE_LOCATION" ]

/-- The `advanced` tier of the permission table (source lines 169-184). -/
def permissions_advanced : List String :=
  permissions_intermediate ++
  [ "android.permission.USE_BIOMETRIC"
  , "android.permission.INSTALL_PACKAGES"
  , "android.permission.REQUEST_INSTALL_PACKAGES" ]

/-- The permission tier table of `main` (source lines 140-185). -/
def permissions : List (String × List String) :=
  [ ("basic", permissions_basic)
  , ("beginner", permissions_beginner)
  , ("intermediate", permissions_intermediate)
  , ("advanced", permissions_advanced) ]

theorem add_permissions_loop (ex : List (Option String)) (perms : List String)
    (acc : List Elem) (added : List String) :
    perms.foldl
        (fun st p =>
          if some p ∈ ex then st
          else (st.1 ++ [usesPermissionElem p], st.2 ++ [p]))
        (acc, added)
      = (acc ++ (perms.filter (fun p => decide (some p ∉ ex))).map usesPermissionElem,
         added ++ perms.filter (fun p => decide (some p ∉ ex))) := by
  induction perms generalizing acc added with
  | nil => simp
  | cons p rest ih =>
    by_cases h : some p ∈ ex
    · simp [List.foldl_cons, h, ih, List.filter_cons]
    · simp [List.foldl_cons, h, ih, List.filter_cons]

theorem add_permissions_closed (children : List Elem) (perms : List String) :
    add_permissions children perms
      = (children ++
          (perms.filter
            (fun p => decide (some p ∉ existing_permissions children))).map usesPermissionElem,
         perms.filter (fun p => decide (some p ∉ existing_permissions children))) := by
  have h := add_permissions_loop (existing_permissions children) perms children []
  simpa [add_permissions] using h

/-- C4: on a manifest root with zero pre-existing `uses-permission` children,
`add_permissions` with the `basic` tier appends exactly the 4 basic-tier
`uses-permission` elements (namespaced `name` attribute set to the permission
string), in the tier-list order. -/
theorem C4_add_permissions_basic_fresh (children : List Elem)
    (h : findall children "uses-permission" = []) :
    add_permissions children permissions_basic
        = (children ++ permissions_basic.map usesPermissionElem, permissions_basic)
      ∧ (permissions_basic.map usesPermissionElem).length = 4 := by
  have hex : existing_permissions children = [] := by
    simp [existing_permissions, h]
  rw [add_permissions_closed, hex]
  constructor
  · simp
  · simp [permissions_basic]

/-- Witness for C4 on a manifest root holding only an `application` child. -/
theorem C4_witness :
    add_permissions [Elem.mk "application" []] permissions_basic
        = ([Elem.mk "application" []] ++ permissions_basic.map usesPermissionElem,
           permissions_basic)
      ∧ (permissions_basic.map usesPermissionElem).length = 4 :=
  C4_add_permissions_basic_fresh [Elem.mk "application" []] (by decide)

/-- C5: for every manifest root, (a) when `android.permission.INTERNET` is
already declared and the other three basic permissions are not,
`add_permissions` with the `basic` tier appends only those 3 missing
permissions; and (b) for any request list whose permissions are all already
declared — in particular a manifest with all four basic permissions present —
nothing is appended and the file is not rewritten. -/
theorem C5_add_permissions_skip_and_untouched (children : List Elem) :
    ((some "android.permission.INTERNET" ∈ existing_permissions children
        ∧ some "android.permission.ACCESS_NETWORK_STATE" ∉ existing_permissions children
        ∧ some "android.permission.ACCESS_WIFI_STATE" ∉ existing_permissions children
        ∧ some "android.permission.READ_EXTERNAL_STORAGE" ∉ existing_permissions children) →
      add_permissions children permissions_basic
        = (children ++
            [usesPermissionElem "android.permission.ACCESS_NETWORK_STATE",
             usesPermissionElem "android.permission.ACCESS_WIFI_STATE",
             usesPermissionElem "android.permission.READ_EXTERNAL_STORAGE"],
           ["android.permission.ACCESS_NETWORK_STATE",
            "android.permission.ACCESS_WIFI_STATE",
            "android.permission.READ_EXTERNAL_STORAGE"]))
      ∧ ∀ perms : List String,
          (∀ p ∈ perms, some p ∈ existing_permissions children) →
            add_permissions children perms = (children, [])
              ∧ manifest_written children perms = false := by
  constructor
  · rintro ⟨hI, hN, hW, hR⟩
    rw [add_permissions_closed]
    simp [permissions_basic, List.filter_cons, hI, hN, hW, hR]
  · intro perms hall
    have hfil : perms.filter
        (fun p => decide (some p ∉ existing_permissions children)) = [] := by
      rw [List.filter_eq_nil_iff]
      intro a ha
      simpa using hall a ha
    constructor
    · rw [add_permissions_closed, hfil]
      simp
    · simp only [manifest_written, add_permissions_closed, hfil]
      rfl

/-- Witness for C5: a manifest declaring only INTERNET gets the 3 missing
basic permissions appended, and a manifest declaring all four basic
permissions is left untouched. -/
theorem C5_witness :
    add_permissions [usesPermissionElem "android.permission.INTERNET"] permissions_basic
        = ([usesPermissionElem "android.permission.INTERNET"] ++
            [usesPermissionElem "android.permission.ACCESS_NETWORK_STATE",
             usesPermissionElem "android.permission.ACCESS_WIFI_STATE",
             usesPermissionElem "android.permission.READ_EXTERNAL_STORAGE"],
           ["android.permission.ACCESS_NETWORK_STATE",
            "android.permission.ACCESS_WIFI_STATE",
            "android.permission.READ_EXTERNAL_STORAGE"])
      ∧ (add_permissions
            [usesPermissionElem "android.permission.INTERNET",
             usesPermissionElem "android.permission.ACCESS_NETWORK_STATE",
             usesPermissionElem "android.permission.ACCESS_WIFI_STATE",
             usesPermissionElem "android.permission.READ_EXTERNAL_STORAGE"]
            permissions_basic
          = ([usesPermissionElem "android.permission.INTERNET",
              usesPermissionElem "android.permission.ACCESS_NETWORK_STATE",
              usesPermissionElem "android.permission.ACCESS_WIFI_STATE",
              usesPermissionElem "android.permission.READ_EXTERNAL_STORAGE"], [])
          ∧ manifest_written
              [usesPermissionElem "android.permission.INTERNET",
               usesPermissionElem "android.permission.ACCESS_NETWORK_STATE",
               usesPermissionElem "android.permission.ACCESS_WIFI_STATE",
               usesPermissionElem "android.permission.READ_EXTERNAL_STORAGE"]
              permissions_basic = false) :=
  ⟨(C5_add_permissions_skip_and_untouched
      [usesPermissionElem "android.permission.INTERNET"]).1
      ⟨by decide, by decide, by decide, by decide⟩,
   (C5_add_permissions_skip_and_untouched
      [usesPermissionElem "android.permission.INTERNET",
       usesPermissionElem "android.permission.ACCESS_NETWORK_STATE",
       usesPermissionElem "android.permission.ACCESS_WIFI_STATE",
       usesPermissionElem "android.permission.READ_EXTERNAL_STORAGE"]).2
      permissions_basic (by decide)⟩

/-- C8: each permission tier's set of strings is a strict superset of the
previous tier's (basic below beginner below intermediate below advanced). -/
theorem C8_tiers_strictly_increasing :
    ((∀ x ∈ permissions_basic, x ∈ permissions_beginner)
        ∧ ∃ y ∈ permissions_beginner, y ∉ permissions_basic)
      ∧ ((∀ x ∈ permissions_beginner, x ∈ permissions_intermediate)
        ∧ ∃ y ∈ permissions_intermediate, y ∉ permissions_beginner)
      ∧ ((∀ x ∈ permissions_intermediate, x ∈ permissions_advanced)
        ∧ ∃ y ∈ permissions_advanced, y ∉ permissions_intermediate) := by
  decide

/-- C10: the existing-permission set is computed once before the loop and
never refreshed, so a request list holding the same undeclared permission
twice appends it twice: the added list counts it at least twice, and the new
children are the old ones plus one `uses-permission` element per added entry
(hence a duplicate declaration). -/
theorem C10_duplicate_permission_appended (children : List Elem) (perms : List String)
    (p : String)
    (hp : some p ∉ existing_permissions children)
    (hc : 2 ≤ perms.count p) :
    2 ≤ (add_permissions children perms).2.count p
      ∧ (add_permissions children perms).1
          = children ++ (add_permissions children perms).2.map usesPermissionElem := by
  have hpred : (fun q => decide (some q ∉ existing_permissions children)) p = true := by
    simpa using hp
  have hcount := List.count_filter
    (p := fun q => decide (some q ∉ existing_permissions children)) (a := p) (l := perms) hpred
  rw [add_permissions_closed]
  refine ⟨?_, rfl⟩
  show 2 ≤ List.count p
    (List.filter (fun q => decide (some q ∉ existing_permissions children)) perms)
  rw [hcount]
  exact hc

/-- Witness for C10: an empty root and the CAMERA permission requested twice. -/
theorem C10_witness :
    2 ≤ (add_permissions [] ["android.permission.CAMERA", "android.permission.CAMERA"]).2.count
          "android.permission.CAMERA"
      ∧ (add_permissions [] ["android.permission.CAMERA", "android.permission.CAMERA"]).1
          = [] ++ (add_permissions []
              ["android.permission.CAMERA", "android.permission.CAMERA"]).2.map
                usesPermissionElem :=
  C10_duplicate_permission_appended [] ["android.permission.CAMERA", "android.permission.CAMERA"]
    "android.permission.CAMERA" (by decide) (by decide)

/-- Python `os.path.join(a, b)` for the shapes this script uses. -/
def pathJoin (a b : String) : String :=
  if b.startsWith "/" then b
  else if a = "" then b
  else if a.endsWith "/" then a ++ b
  else a ++ "/" ++ b

/-- Python `package_name.replace(".", "/")`: dots become path separators. -/
def dotsToSlashes (pkg : String) : String :=
  pkg.map (fun c => if c = '.' then '/' else c)

/-- The eleven folders of `create_folders` (source lines 59-71), in order. -/
def folders (base pkg : String) : List String :=
  let package_path := dotsToSlashes pkg
  [ pathJoin base ("app/src/main/java/" ++ package_path)
  , pathJoin base ("app/src/main/java/" ++ package_path ++ "/domain")
  , pathJoin base ("app/src/main/java/" ++ package_path ++ "/domain/models")
  , pathJoin base ("app/src/main/java/" ++ package_path ++ "/domain/usecases")
  , pathJoin base ("app/src/main/java/" ++ package_path ++ "/data")
  , pathJoin base ("app/src/main/java/" ++ package_path ++ "/data/repository")
  , pathJoin base ("app/src/main/java/" ++ package_path ++ "/data/local")
  , pathJoin base ("app/src/main/java/" ++ package_path ++ "/data/remote")
  , pathJoin base ("app/src/main/java/" ++ package_path ++ "/presentation")
  , pathJoin base ("app/src/main/java/" ++ package_path ++ "/presentation/ui")
  , pathJoin base ("app/src/main/java/" ++ package_path ++ "/presentation/viewmodels") ]

/-- The directories `os.makedirs` brings into existence for a target path: the
proper ancestor prefixes (separator-wise) followed by the path itself. -/
def pathPrefixes (p : String) : List String :=
  let parts := p.splitOn "/"
  ((List.range (parts.length - 1)).map
    (fun i => String.intercalate "/" (parts.take (i + 1)))) ++ [p]

/-- Record a directory as existing (directory sets have no duplicates). -/
def insertDir (fs : List String) (d : String) : List String :=
  if d ∈ fs then fs else fs ++ [d]

/-- Directory set after `os.makedirs(p)` succeeds. -/
def mkdirsSet (fs : List String) (p : String) : List String :=
  (pathPrefixes p).foldl insertDir fs

/-- Python `os.makedirs(p, exist_ok=...)` on a directory-set state: raises
`FileExistsError` only when the target exists and `exist_ok` is false;
otherwise creates the missing ancestors and the target. -/
def makedirs (fs : List String) (p : String) (exist_ok : Bool) :
    Except String (List String) :=
  if p ∈ fs ∧ exist_ok = false then Except.error ("FileExistsError: " ++ p)
  else Except.ok (mkdirsSet fs p)

/-- `create_folders` (source lines 50-79): `os.makedirs(folder, exist_ok=True)`
for each of the eleven folders in order, stopping at the first fault (the
whole loop sits in one `try`). -/
def create_folders (fs : List String) (base pkg : String) :
    Except String (List String) :=
  (folders base pkg).foldlM (fun s f => makedirs s f true) fs

theorem makedirs_exist_ok (fs : List String) (p : String) :
    makedirs fs p true = Except.ok (mkdirsSet fs p) := by
  simp [makedirs]

theorem create_folders_ok (L : List String) (fs : List String) :
    L.foldlM (fun s f => makedirs s f true) fs = Except.ok (L.foldl mkdirsSet fs) := by
  induction L generalizing fs with
  | nil => rfl
  | cons f L ih =>
    rw [List.foldlM_cons, makedirs_exist_ok, List.foldl_cons]
    exact ih (mkdirsSet fs f)

theorem mem_foldl_insertDir_of_mem (ps : List String) (fs : List String) (x : String)
    (hx : x ∈ fs) : x ∈ ps.foldl insertDir fs := by
  induction ps generalizing fs with
  | nil => exact hx
  | cons q ps ih =>
    refine ih (insertDir fs q) ?_
    by_cases h : q ∈ fs <;> simp [insertDir, h, hx]

theorem mem_foldl_insertDir_of_mem_list (ps : List String) (fs : List String) (q : String)
    (hq : q ∈ ps) : q ∈ ps.foldl insertDir fs := by
  induction ps generalizing fs with
  | nil => cases hq
  | cons r ps ih =>
    rcases List.mem_cons.mp hq with h | h
    · subst h
      refine mem_foldl_insertDir_of_mem ps _ q ?_
      by_cases h : q ∈ fs <;> simp [insertDir, h]
    · exact ih _ h

theorem foldl_insertDir_noop (ps : List String) (fs : List String)
    (h : ∀ q ∈ ps, q ∈ fs) : ps.foldl insertDir fs = fs := by
  induction ps with
  | nil => rfl
  | cons q ps ih =>
    have hq : q ∈ fs := h q (List.mem_cons_self q ps)
    simp only [List.foldl_cons, insertDir, hq, if_pos]
    exact ih (fun r hr => h r (List.mem_cons_of_mem q hr))

theorem mem_mkdirsSet_of_mem (fs : List String) (p x : String) (hx : x ∈ fs) :
    x ∈ mkdirsSet fs p :=
  mem_foldl_insertDir_of_mem _ _ _ hx

theorem mem_foldl_mkdirsSet_of_mem (L : List String) (fs : List String) (x : String)
    (hx : x ∈ fs) : x ∈ L.foldl mkdirsSet fs := by
  induction L generalizing fs with
  | nil => exact hx
  | cons f L ih => exact ih _ (mem_mkdirsSet_of_mem _ _ _ hx)

theorem prefixes_mem_run (L : List String) (f q : String)
    (hf : f ∈ L) (hq : q ∈ pathPrefixes f) :
    ∀ fs, q ∈ L.foldl mkdirsSet fs := by
  induction L with
  | nil => cases hf
  | cons g L ih =>
    intro fs
    simp only [List.foldl_cons]
    rcases List.mem_cons.mp hf with h | h
    · subst h
      exact mem_foldl_mkdirsSet_of_mem L _ q
        (mem_foldl_insertDir_of_mem_list (pathPrefixes f) fs q hq)
    · exact ih h _

theorem mkdirsSet_noop (fs : List String) (f : String)
    (h : ∀ q ∈ pathPrefixes f, q ∈ fs) : mkdirsSet fs f = fs :=
  foldl_insertDir_noop _ _ h

theorem run_mkdirsSet_noop (L : List String) (fs : List String)
    (h : ∀ f ∈ L, ∀ q ∈ pathPrefixes f, q ∈ fs) : L.foldl mkdirsSet fs = fs := by
  induction L with
  | nil => rfl
  | cons f L ih =>
    simp only [List.foldl_cons, mkdirsSet_noop fs f (h f (List.mem_cons_self f L))]
    exact ih (fun g hg => h g (List.mem_cons_of_mem f hg))

/-- C7: `create_folders` is idempotent: the first run succeeds and yields a
state containing the eleven folders, and a second run on that state succeeds
with no fault and changes nothing. -/
theorem C7_create_folders_idempotent (fs : List String) (base pkg : String) :
    ∃ fs1, create_folders fs base pkg = Except.ok fs1
      ∧ create_folders fs1 base pkg = Except.ok fs1
      ∧ (∀ f ∈ folders base pkg, f ∈ fs1)
      ∧ (folders base pkg).length = 11 := by
  refine ⟨(folders base pkg).foldl mkdirsSet fs, create_folders_ok _ _, ?_, ?_, rfl⟩
  · rw [create_folders, create_folders_ok, run_mkdirsSet_noop]
    intro f hf q hq
    exact prefixes_mem_run _ _ _ hf hq fs
  · intro f hf
    exact prefixes_mem_run _ _ _ hf (by simp [pathPrefixes]) fs

/-- The literal part of the regex `applicationId\s*=\s*"([^"]+)"`:
the characters of `applicationId`. -/
def applicationIdPat : List Char :=
  ['a', 'p', 'p', 'l', 'i', 'c', 'a', 't', 'i', 'o', 'n', 'I', 'd']

/-- Regex tail `([^"]+)"` after the opening quote: the capture group is the
maximal run of non-quote characters; it must be nonempty and followed by a
closing quote. -/
def captureQuoted (r5 : List Char) : Option (List Char) :=
  match r5.drop (r5.takeWhile (fun c => c != '\"')).length with
  | '\"' :: _ =>
    if (r5.takeWhile (fun c => c != '\"')).isEmpty then none
    else some (r5.takeWhile (fun c => c != '\"'))
  | _ => none

/-- Regex tail `\s*"([^"]+)"` after the `=`. -/
def afterEqSign (r3 : List Char) : Option (List Char) :=
  match r3.dropWhile isPySpace with
  | '\"' :: r5 => captureQuoted r5
  | _ => none

/-- Regex tail `\s*=\s*"([^"]+)"` after the literal `applicationId`. -/
def afterPat (r1 : List Char) : Option (List Char) :=
  match r1.dropWhile isPySpace with
  | '=' :: r3 => afterEqSign r3
  | _ => none

/-- One attempt of the regex `applicationId\s*=\s*"([^"]+)"` anchored at the
start of `cs`; returns the capture group on success. -/
def matchAt (cs : List Char) : Option (List Char) :=
  if applicationIdPat.isPrefixOf cs then afterPat (cs.drop applicationIdPat.length)
  else none

/-- `re.search`: try the pattern at each position left to right, returning the
leftmost match's capture group. -/
def reSearch : List Char → Option (List Char)
  | [] => none
  | c :: cs =>
    match matchAt (c :: cs) with
    | some r => some r
    | none => reSearch cs

/-- `extract_application_id` on successfully read file text (source lines
27-31, 34): the first capture of the regex, else the sentinel. -/
def extract_application_id (content : String) : String :=
  match reSearch content.data with
  | some cap => cap.asString
  | none => "applicationId not found"

/-- `extract_application_id` including the `try`/`except` (source lines 26-34):
`none` stands for an unreadable file whose exception text is `errMsg`. -/
def extract_application_id_io (file : Option String) (errMsg : String) : String :=
  match file with
  | some content => extract_application_id content
  | none => "Error reading gradle file: " ++ errMsg

/-- The literal the top-level script checks the extraction result against
(source line 322). -/
def notFoundLit : String := "not found"

/-- The success test of the top-level script (source line 322):
`if application_id and "not found" not in application_id`. -/
def main_accepts_application_id (appId : String) : Bool :=
  !(appId.data.isEmpty) && !(strContains appId notFoundLit)

theorem dropWhile_append_of_all (p : Char → Bool) (xs ys : List Char)
    (h : ∀ c ∈ xs, p c = true) : (xs ++ ys).dropWhile p = ys.dropWhile p := by
  induction xs with
  | nil => rfl
  | cons c xs ih =>
    rw [List.cons_append, List.dropWhile_cons, if_pos (h c (List.mem_cons_self c xs))]
    exact ih (fun d hd => h d (List.mem_cons_of_mem c hd))

theorem takeWhile_middle (p : Char → Bool) (v : List Char) (y : Char) (post : List Char)
    (hv : ∀ c ∈ v, p c = true) (hy : p y = false) :
    (v ++ y :: post).takeWhile p = v := by
  induction v with
  | nil => simp [List.takeWhile_cons, hy]
  | cons c v ih =>
    simp only [List.cons_append, List.takeWhile_cons, hv c (List.mem_cons_self c v),
      eq_self_iff_true, if_true, ite_true, List.cons.injEq, true_and]
    exact ih (fun d hd => hv d (List.mem_cons_of_mem c hd))

theorem isPrefixOf_append_self (l r : List Char) : l.isPrefixOf (l ++ r) = true :=
  (List.isPrefixOf_iff_prefix).mpr (List.prefix_append l r)

theorem captureQuoted_eq (v post : List Char) (hv : v ≠ [])
    (hq : ∀ c ∈ v, (c != '\"') = true) :
    captureQuoted (v ++ '\"' :: post) = some v := by
  have hc : (v ++ '\"' :: post).takeWhile (fun c => c != '\"') = v :=
    takeWhile_middle _ v _ post hq rfl
  rw [captureQuoted, hc, List.drop_left]
  obtain ⟨c, v', rfl⟩ := List.exists_cons_of_ne_nil hv
  rfl

theorem afterEqSign_eq (ws2 v post : List Char)
    (h2 : ∀ c ∈ ws2, isPySpace c = true) (hv : v ≠ [])
    (hq : ∀ c ∈ v, (c != '\"') = true) :
    afterEqSign (ws2 ++ '\"' :: (v ++ '\"' :: post)) = some v := by
  rw [afterEqSign, dropWhile_append_of_all isPySpace ws2 _ h2, List.dropWhile_cons]
  simp only [isPySpace, if_false]
  exact captureQuoted_eq v post hv hq

theorem afterPat_eq (ws1 ws2 v post : List Char)
    (h1 : ∀ c ∈ ws1, isPySpace c = true) (h2 : ∀ c ∈ ws2, isPySpace c = true)
    (hv : v ≠ []) (hq : ∀ c ∈ v, (c != '\"') = true) :
    afterPat (ws1 ++ '=' :: (ws2 ++ '\"' :: (v ++ '\"' :: post))) = some v := by
  rw [afterPat, dropWhile_append_of_all isPySpace ws1 _ h1, List.dropWhile_cons]
  simp only [isPySpace, if_false]
  exact afterEqSign_eq ws2 v post h2 hv hq

theorem matchAt_eq (ws1 ws2 v post : List Char)
    (h1 : ∀ c ∈ ws1, isPySpace c = true) (h2 : ∀ c ∈ ws2, isPySpace c = true)
    (hv : v ≠ []) (hq : ∀ c ∈ v, (c != '\"') = true) :
    matchAt (applicationIdPat ++ (ws1 ++ '=' :: (ws2 ++ '\"' :: (v ++ '\"' :: post))))
      = some v := by
  rw [matchAt, if_pos (isPrefixOf_append_self _ _), List.drop_left]
  exact afterPat_eq ws1 ws2 v post h1 h2 hv hq

theorem reSearch_of_matchAt (cs r : List Char) (h : matchAt cs = some r) :
    reSearch cs = some r := by
  cases cs with
  | nil =>
    rw [show matchAt ([] : List Char) = none from rfl] at h
    exact Option.noConfusion h
  | cons c cs => simp [reSearch, h]

theorem reSearch_append (xs ys : List Char)
    (h : ∀ t ∈ (xs ++ ys).tails, ys.length < t.length → matchAt t = none) :
    reSearch (xs ++ ys) = reSearch ys := by
  induction xs with
  | nil => rfl
  | cons c xs ih =>
    have hc : matchAt (c :: (xs ++ ys)) = none := by
      refine h _ ((List.mem_tails _ _).mpr (List.suffix_refl _)) ?_
      simp only [List.length_cons, List.length_append]
      omega
    rw [List.cons_append, reSearch, hc]
    exact ih (fun t ht hlen =>
      h t ((List.mem_tails _ _).mpr
        (((List.mem_tails _ _).mp ht).trans (List.suffix_cons c (xs ++ ys)))) hlen)

theorem reSearch_none (cs : List Char) (h : ∀ t ∈ cs.tails, matchAt t = none) :
    reSearch cs = none := by
  induction cs with
  | nil => rfl
  | cons c cs ih =>
    rw [reSearch, h _ ((List.mem_tails _ _).mpr (List.suffix_refl _))]
    exact ih (fun t ht =>
      h t ((List.mem_tails _ _).mpr
        (((List.mem_tails _ _).mp ht).trans (List.suffix_cons c cs))))

/-- C6: `extract_application_id` returns the contents of the first
double-quoted literal following `applicationId`, optional whitespace, `=`,
optional whitespace (leftmost regex match: no earlier position of the text
matches); when no position matches it returns the sentinel
`applicationId not found`; and when the file cannot be read it returns the
descriptive failure string instead of raising. -/
theorem C6_extract_application_id (s bad : String) (pre ws1 ws2 v post : List Char)
    (e : String)
    (hs : s.data = pre ++ (applicationIdPat ++ (ws1 ++ '=' :: (ws2 ++ '\"' :: (v ++ '\"' :: post)))))
    (h1 : ∀ c ∈ ws1, isPySpace c = true) (h2 : ∀ c ∈ ws2, isPySpace c = true)
    (hv : v ≠ []) (hq : ∀ c ∈ v, (c != '\"') = true)
    (hpre : ∀ t ∈ s.data.tails,
      (applicationIdPat ++ (ws1 ++ '=' :: (ws2 ++ '\"' :: (v ++ '\"' :: post)))).length < t.length
        → matchAt t = none)
    (hbad : ∀ t ∈ bad.data.tails, matchAt t = none) :
    extract_application_id s = v.asString
      ∧ extract_application_id bad = "applicationId not found"
      ∧ extract_application_id_io none e = "Error reading gradle file: " ++ e := by
  refine ⟨?_, ?_, rfl⟩
  · rw [extract_application_id, hs, reSearch_append _ _ (hs ▸ hpre),
      reSearch_of_matchAt _ v (matchAt_eq ws1 ws2 v post h1 h2 hv hq)]
  · rw [extract_application_id, reSearch_none _ hbad]

/-- Witness for C6 at a concrete gradle text, a concrete matchless text, and a
concrete exception message. -/
theorem C6_witness :
    extract_application_id "x\napplicationId = \"com.example.app\"\n"
        = List.asString "com.example.app".data
      ∧ extract_application_id "no id here\n" = "applicationId not found"
      ∧ extract_application_id_io none "[Errno 2] No such file or directory"
          = "Error reading gradle file: " ++ "[Errno 2] No such file or directory" :=
  C6_extract_application_id "x\napplicationId = \"com.example.app\"\n" "no id here\n"
    "x\n".data [' '] [' '] "com.example.app".data ['\n']
    "[Errno 2] No such file or directory"
    (by decide) (by decide) (by decide) (by decide) (by decide) (by decide) (by decide)

theorem listContainsSub_append_split (n p e : List Char)
    (h : listContainsSub n (p ++ e) = true) :
    (∃ s, s ∈ p.tails ∧ s ≠ [] ∧ n.isPrefixOf (s ++ e) = true)
      ∨ listContainsSub n e = true := by
  induction p with
  | nil => right; simpa using h
  | cons c p ih =>
    rw [List.cons_append, listContainsSub] at h
    simp only [Bool.or_eq_true] at h
    rcases h with h1 | h2
    · left
      refine ⟨c :: p, (List.mem_tails _ _).mpr (List.suffix_refl _), by simp, ?_⟩
      rw [List.cons_append]
      exact h1
    · rcases ih h2 with ⟨s, hs, hne, hp⟩ | h3
      · left
        exact ⟨s, (List.mem_tails _ _).mpr
          (((List.mem_tails _ _).mp hs).trans (List.suffix_cons c p)), hne, hp⟩
      · right; exact h3

theorem errPrefix_no_notfound (e : String)
    (he : strContains e notFoundLit = false) :
    listContainsSub notFoundLit.data ("Error reading gradle file: ".data ++ e.data)
      = false := by
  rcases hb : listContainsSub notFoundLit.data ("Error reading gradle file: ".data ++ e.data)
    with _ | _
  · rfl
  · exfalso
    rcases listContainsSub_append_split _ _ _ hb with ⟨s, hs, hne, hp⟩ | h2
    · have hpre : notFoundLit.data <+: s ++ e.data := (List.isPrefixOf_iff_prefix).mp hp
      rcases List.prefix_or_prefix_of_prefix hpre (List.prefix_append s e.data) with h | h
      · have hno : ∀ s ∈ ("Error reading gradle file: ".data).tails, s ≠ [] →
            ¬ (notFoundLit.data <+: s) := by decide
        exact hno s hs hne h
      · have hno : ∀ s ∈ ("Error reading gradle file: ".data).tails, s ≠ [] →
            ¬ (s <+: notFoundLit.data) := by decide
        exact hno s hs hne h
    · rw [strContains] at he
      rw [he] at h2
      exact Bool.false_ne_true h2

/-- C9: on a read failure whose exception text does not itself contain
`not found`, `extract_application_id` returns a string starting with
`Error reading gradle file:` that does not contain `not found`, so the
top-level success check (source line 322) accepts it and the script proceeds
to scaffold with the error message as the applicationId. -/
theorem C9_read_failure_misclassified (e : String)
    (he : strContains e notFoundLit = false) :
    "Error reading gradle file:".data.isPrefixOf (extract_application_id_io none e).data
        = true
      ∧ strContains (extract_application_id_io none e) notFoundLit = false
      ∧ main_accepts_application_id (extract_application_id_io none e) = true := by
  have hdata : (extract_application_id_io none e).data
      = "Error reading gradle file: ".data ++ e.data := by
    rw [show extract_application_id_io none e = "Error reading gradle file: " ++ e from rfl,
      String.data_append]
  have hsub : strContains (extract_application_id_io none e) notFoundLit = false := by
    rw [strContains, hdata]
    exact errPrefix_no_notfound e he
  refine ⟨?_, hsub, ?_⟩
  · rw [hdata,
      show "Error reading gradle file: ".data
        = "Error reading gradle file:".data ++ [' '] from rfl,
      List.append_assoc]
    exact isPrefixOf_append_self _ _
  · rw [main_accepts_application_id, hsub, hdata]
    rfl

/-- Witness for C9 at a concrete OS error message. -/
theorem C9_witness :
    "Error reading gradle file:".data.isPrefixOf
        (extract_application_id_io none "[Errno 2] No such file or directory: 'g'").data
        = true
      ∧ strContains
          (extract_application_id_io none "[Errno 2] No such file or directory: 'g'")
          notFoundLit = false
      ∧ main_accepts_application_id
          (extract_application_id_io none "[Errno 2] No such file or directory: 'g'")
          = true :=
  C9_read_failure_misclassified "[Errno 2] No such file or directory: 'g'" (by decide)
